import Mathlib

/-!
Verification of the chess AI betting platform core against its
natural-language specification.

The development shallowly embeds the server-side core of the repository:

* the style-biased move selector (`generateAIMoveForStyle` in
  `server/storage.ts`),
* the match lifecycle tick of `MatchProcessorService` in
  `server/services/match-processor.ts` (promotion of scheduled matches,
  game-over detection, move-ceiling forced draw),
* match creation by `MatchmakingService.createActiveMatches` in
  `server/services/matchmaking.ts`,
* bet settlement (`storage.updateMatchResult` in `server/storage.ts`),
* the bet placement route (`POST /api/bets` in `server/routes.ts`) and the
  claim route (`POST /api/bets/:id/claim`).

Conventions of the embedding:

* JavaScript numbers (`real` columns of the schema: pool amounts, stakes,
  payouts) are modelled as rationals.
* Timestamps are modelled as integers (milliseconds since the epoch);
  only their ordering is relevant.
* The third-party rules engine (chess.js) is out of scope per the spec
  (an external "Rules Engine Adapter"); its answers — the annotated legal
  move list of a position, and the terminal-state report of a replayed
  game — are inputs to the embedded functions.  An exception thrown while
  evaluating a position (e.g. an unparsable FEN) is modelled as an
  `Except.error` input.
* `Math.random()` draws are modelled as injected rationals `r` with
  `0 ≤ r < 1`, matching the spec requirement that the random stream be
  injectable.
* In-place mutation of a record found in the module-level arrays
  (`mockMatches`, `mockBets`) is modelled as rebuilding the list with the
  first record of the given id replaced.
-/

/-- Status / outcome strings are kept as strings, exactly as the source
stores them (`"Scheduled"`, `"InProgress"`, `"Completed"`, `"White"`,
`"Black"`, `"Draw"`, `"Active"`, `"Won"`, `"Lost"`). -/
structure ChessMatch where
  id : Nat
  solana_match_id : Nat
  white_bot_id : Nat
  black_bot_id : Nat
  status : String
  match_type : String
  start_time : Int
  end_time : Option Int
  result : Option String
  white_pool : ℚ
  black_pool : ℚ
  draw_pool : ℚ
  bets_locked : Bool
  moves : List String
  time_control : String
deriving DecidableEq, Repr

/-- Bets as stored in the `bets` table / `mockBets` array.  `payout` is
nullable (`none` until a bet wins); `transaction_signature` is nullable. -/
structure Bet where
  id : String
  match_id : Nat
  solana_match_id : Nat
  user_wallet : String
  amount : ℚ
  outcome : String
  transaction_signature : Option String
  status : String
  claimed : Bool
  payout : Option ℚ
deriving DecidableEq, Repr

/-- Replace the first match with the given id by `f` of it, leaving every
other record untouched.  This models in-place mutation of the record that
`mockMatches.find` / `findIndex` locates. -/
def updateFirstMatch (mid : Nat) (f : ChessMatch → ChessMatch) :
    List ChessMatch → List ChessMatch
  | [] => []
  | m :: rest => if m.id = mid then f m :: rest else m :: updateFirstMatch mid f rest

/-! ## Bet settlement (`storage.updateMatchResult`, `server/storage.ts` 163-234) -/

/-- The winning pool selected by the SQL `CASE` on the result string:
`WHEN result = White THEN white_pool WHEN result = Black THEN black_pool
ELSE draw_pool`. -/
def winningPoolOf (m : ChessMatch) (result : String) : ℚ :=
  if result = "White" then m.white_pool
  else if result = "Black" then m.black_pool
  else m.draw_pool

/-- First settlement UPDATE: every bet of the match whose outcome equals
the result is set to `Won`, with
`payout = amount * ((white + black + draw) / winningPool) * 0.95`
(the inner `CASE WHEN outcome = result THEN ... ELSE payout END` of the
source is kept even though the WHERE clause already forces its first
branch). -/
def settleWonPass (mid : Nat) (result : String) (total winning : ℚ)
    (bets : List Bet) : List Bet :=
  bets.map fun b =>
    if b.match_id = mid ∧ b.outcome = result then
      { b with
        status := "Won",
        payout := if b.outcome = result
                  then some (b.amount * (total / winning) * (95 / 100))
                  else b.payout }
    else b

/-- WHERE clause of the second settlement UPDATE (the `Lost` pass): the
source builds, by a ternary on the result string, the condition
`status = Active AND outcome IN (the two losing outcomes)`. -/
def lostCond (result : String) (b : Bet) : Bool :=
  if result = "White" then
    b.status == "Active" && (b.outcome == "Black" || b.outcome == "Draw")
  else if result = "Black" then
    b.status == "Active" && (b.outcome == "White" || b.outcome == "Draw")
  else
    b.status == "Active" && (b.outcome == "White" || b.outcome == "Black")

/-- Second settlement UPDATE: bets of the match that are still `Active`
and bet on a losing outcome are set to `Lost` (payout untouched). -/
def settleLostPass (mid : Nat) (result : String) (bets : List Bet) : List Bet :=
  bets.map fun b =>
    if b.match_id = mid ∧ lostCond result b then { b with status := "Lost" } else b

/-- Field updates applied to the match row by `updateMatchResult` (and,
identically, by the game-over branches of the match processor and the
`PATCH /api/matches/:id/result` route): result, `Completed`, end time,
betting locked. -/
def completeMatch (result : String) (now : Int) (m : ChessMatch) : ChessMatch :=
  { m with
    result := some result,
    status := "Completed",
    end_time := some now,
    bets_locked := true }

/-- Whole `storage.updateMatchResult(id, result)`: look the match up (null
propagates as "no change"), complete it, then run the two bet UPDATE
passes with the completed row's pools. -/
def updateMatchResult (mid : Nat) (result : String) (now : Int)
    (matchList : List ChessMatch) (bets : List Bet) :
    List ChessMatch × List Bet :=
  match matchList.find? (fun m => m.id == mid) with
  | none => (matchList, bets)
  | some m =>
    let updated := completeMatch result now m
    (updateFirstMatch mid (fun _ => updated) matchList,
     settleLostPass mid result
       (settleWonPass mid result
         (updated.white_pool + updated.black_pool + updated.draw_pool)
         (winningPoolOf updated result) bets))

/-! ## Style-biased move selector (`generateAIMoveForStyle`, `server/storage.ts` 8-59) -/

/-- Legal move as annotated by the rules engine's verbose move list: the
SAN string (which carries the check marker), whether the `captured` field
is set (truthy), and the moving piece letter. -/
structure AnnotatedMove where
  san : String
  captured : Bool
  piece : Char
deriving DecidableEq, Repr

/-- Style filter building `preferredMoves` from the legal move list — the
`switch (aiModel.style)` of the source.  Aggressive: `move.captured ||
move.san.includes("+")`; Defensive: `!move.captured`; Positional: knight
or bishop moves or castling SANs; Tactical: `move.san.includes("+") ||
move.captured`; any other style leaves `preferredMoves` empty. -/
def preferredMovesFor (style : String) (legalMoves : List AnnotatedMove) :
    List AnnotatedMove :=
  if style = "Aggressive" then
    legalMoves.filter fun mv => mv.captured || mv.san.contains '+'
  else if style = "Defensive" then
    legalMoves.filter fun mv => !mv.captured
  else if style = "Positional" then
    legalMoves.filter fun mv =>
      mv.piece == 'n' || mv.piece == 'b' || mv.san == "O-O" || mv.san == "O-O-O"
  else if style = "Tactical" then
    legalMoves.filter fun mv => mv.san.contains '+' || mv.captured
  else []

/-- Index computed by `Math.floor(r * list.length)` for a random draw
`r`. -/
def pickIndex (r : ℚ) (n : Nat) : Nat := ⌊r * (n : ℚ)⌋.toNat

/-- Uniform random pick `list[Math.floor(r * list.length)]`.  For a draw
`r` with `0 ≤ r < 1` and a non-empty list the index is in range, so the
optional lookup is `some`. -/
def pickMove (l : List AnnotatedMove) (r : ℚ) : Option AnnotatedMove :=
  l[pickIndex r l.length]?

/-- The move selector.  Its chess.js calls are abstracted into the
`engineMoves` argument: `Except.ok legalMoves` when `new Chess(fen)` and
`chess.moves({verbose: true})` succeed, `Except.error` when evaluating
the position throws.  The three random draws of a run are injected as
`r1` (the 0.3 branch test), `r2` (index into `preferredMoves`) and `r3`
(index into `legalMoves`).  The catch block returns the hard-coded
fallback move `"e4"`. -/
def generateAIMoveForStyle (style : String)
    (engineMoves : Except Unit (List AnnotatedMove)) (r1 r2 r3 : ℚ) :
    Option String :=
  match engineMoves with
  | .error _ => some "e4"
  | .ok legalMoves =>
    if legalMoves.length = 0 then none
    else
      let preferredMoves := preferredMovesFor style legalMoves
      if 0 < preferredMoves.length ∧ (3 : ℚ) / 10 < r1 then
        (pickMove preferredMoves r2).map fun mv => mv.san
      else
        (pickMove legalMoves r3).map fun mv => mv.san

/-- Legal-move set belonging to an engine answer: the returned list on
success, the empty set when the position could not even be evaluated. -/
def legalOf (engineMoves : Except Unit (List AnnotatedMove)) :
    List AnnotatedMove :=
  match engineMoves with
  | .error _ => []
  | .ok legalMoves => legalMoves

/-! ## Match lifecycle tick (`MatchProcessorService`, `server/services/match-processor.ts`) -/

/-- Terminal report of the rules engine on the position reached by
replaying a match's moves: `chess.isGameOver()`, `chess.isCheckmate()`
and whether `chess.turn() == "w"`. -/
structure EngineReport where
  gameOver : Bool
  checkmate : Bool
  whiteTurn : Bool
deriving DecidableEq, Repr

/-- Result string computed at a terminal position (lines 174-177 and
252-258 and 383-385 of `match-processor.ts`): start from `"Draw"`, and on
checkmate the side to move has been mated, so the other side wins. -/
def terminalResult (rep : EngineReport) : String :=
  if rep.checkmate then (if rep.whiteTurn then "Black" else "White") else "Draw"

/-- Per-match body of `startScheduledMatches` (lines 72-116): a
`Scheduled` match whose start time has passed gets `status =
"InProgress"` — and nothing else. -/
def startScheduledStep (now : Int) (m : ChessMatch) : ChessMatch :=
  if m.status = "Scheduled" ∧ m.start_time ≤ now then
    { m with status := "InProgress" }
  else m

/-- `startScheduledMatches` over the whole match list. -/
def startScheduledMatches (now : Int) (matchList : List ChessMatch) :
    List ChessMatch :=
  matchList.map (startScheduledStep now)

/-- Per-match body of `generateAIMovesForActiveMatches` (lines 121-340)
as far as it synchronously updates the match record in this tick: for an
`InProgress` match whose replayed position is game over, write the
terminal result, `Completed`, the end time and the betting lock
(lines 171-193).  When the game is not over the synchronous part of the
body leaves the record unchanged (the generated move is committed later
by a deferred `setTimeout` callback, outside the tick). -/
def generateAIMovesStep (engine : List String → EngineReport) (now : Int)
    (m : ChessMatch) : ChessMatch :=
  if m.status = "InProgress" then
    if (engine m.moves).gameOver then
      completeMatch (terminalResult (engine m.moves)) now m
    else m
  else m

/-- Per-match body of `updateMatchResults` (lines 345-423) as it affects
the in-memory match record: the natural-termination branch (lines
380-392) writes through `storage.updateMatchResult` to the relational
store and does not touch the in-memory record, while the move-ceiling
branch (lines 394-411) forces the in-memory record to a completed draw
whenever the replayed move list has at least 100 entries — regardless of
what the rules engine reported. -/
def updateMatchResultsStep (now : Int) (m : ChessMatch) : ChessMatch :=
  if m.status = "InProgress" then
    if 100 ≤ m.moves.length then
      { m with
        result := some "Draw",
        status := "Completed",
        end_time := some now,
        bets_locked := true }
    else m
  else m

/-- One full `processMatches` tick as seen by a single in-memory match
record: promotion, then the synchronous part of move generation, then
result updating. -/
def processMatchesStep (engine : List String → EngineReport) (now : Int)
    (m : ChessMatch) : ChessMatch :=
  updateMatchResultsStep now (generateAIMovesStep engine now (startScheduledStep now m))

/-! ## Matchmaking (`MatchmakingService.createActiveMatches`, `server/services/matchmaking.ts` 109-156) -/

/-- The match record literal pushed by `createActiveMatches`: it starts
directly in `InProgress`, with `bets_locked: false` and empty pools. -/
def createActiveMatch (newId solanaId whiteId blackId : Nat)
    (matchType timeControl : String) (now : Int) : ChessMatch :=
  { id := newId,
    solana_match_id := solanaId,
    white_bot_id := whiteId,
    black_bot_id := blackId,
    status := "InProgress",
    match_type := matchType,
    start_time := now,
    end_time := none,
    result := none,
    white_pool := 0,
    black_pool := 0,
    draw_pool := 0,
    bets_locked := false,
    moves := [],
    time_control := timeControl }

/-! ## Bet placement (`POST /api/bets`, `server/routes.ts` 410-482) -/

/-- Request body of `POST /api/bets`.  JavaScript `undefined` request
fields behave like the falsy defaults `0` / `""`, which is how the
handler's `!field` checks read them, so absent fields are modelled by
those defaults. -/
structure BetRequest where
  matchId : Nat
  walletAddress : String
  amount : ℚ
  outcome : String
  transactionSignature : String
deriving DecidableEq, Repr

/-- Pool increment performed on the found match record: exactly the pool
of the chosen outcome grows by the stake. -/
def addToPool (outcome : String) (amount : ℚ) (m : ChessMatch) : ChessMatch :=
  if outcome = "White" then { m with white_pool := m.white_pool + amount }
  else if outcome = "Black" then { m with black_pool := m.black_pool + amount }
  else { m with draw_pool := m.draw_pool + amount }

/-- The `POST /api/bets` handler.  Returns the response (`ok` with the
created bet, or the error message) together with the match list and bet
list after the call.  Guards, in source order: the falsy/positivity check
on the body fields, the outcome whitelist, the match lookup, and the
betting-closed check `match.bets_locked || match.status !== "InProgress"`.
`nowMs` stands for `Date.now()`, used for the bet id and the mock
transaction signature. -/
def placeBet (req : BetRequest) (nowMs : Int)
    (matchList : List ChessMatch) (bets : List Bet) :
    Except String Bet × List ChessMatch × List Bet :=
  if req.matchId = 0 ∨ req.walletAddress = "" ∨ req.amount = 0 ∨
      req.outcome = "" ∨ req.amount ≤ 0 then
    (Except.error "Invalid bet parameters", matchList, bets)
  else if ¬ (req.outcome = "White" ∨ req.outcome = "Black" ∨ req.outcome = "Draw") then
    (Except.error "Outcome must be White, Black, or Draw", matchList, bets)
  else
    match matchList.find? (fun m => m.id == req.matchId) with
    | none => (Except.error "Match not found", matchList, bets)
    | some m =>
      if m.bets_locked = true ∨ m.status ≠ "InProgress" then
        (Except.error "Betting is closed for this match", matchList, bets)
      else
        let newBet : Bet :=
          { id := "bet_" ++ toString nowMs,
            match_id := req.matchId,
            solana_match_id := m.solana_match_id,
            user_wallet := req.walletAddress,
            amount := req.amount,
            outcome := req.outcome,
            transaction_signature :=
              some (if req.transactionSignature = ""
                    then "MOCK_TX_" ++ toString nowMs
                    else req.transactionSignature),
            status := "Active",
            claimed := false,
            payout := none }
        (Except.ok newBet,
         updateFirstMatch req.matchId (addToPool req.outcome req.amount) matchList,
         bets ++ [newBet])

/-! ## Claiming (`POST /api/bets/:id/claim`, `server/routes.ts` 484-526, and `storage.claimBet`) -/

/-- `storage.claimBet`: set `claimed = true` on the bet with the given
id, and overwrite the transaction signature only when a truthy one was
supplied (`transactionSignature || old`). -/
def claimBet (betId : String) (txSig : String) (bets : List Bet) : List Bet :=
  bets.map fun b =>
    if b.id = betId then
      { b with
        claimed := true,
        transaction_signature :=
          if txSig = "" then b.transaction_signature else some txSig }
    else b

/-- The `POST /api/bets/:id/claim` handler: requires a wallet address, an
existing bet, ownership, an unclaimed bet, and `status == "Won"` before
calling `storage.claimBet`; any failed guard returns an error without
touching the store. -/
def claimHandler (walletAddress txSig betId : String) (bets : List Bet) :
    Except String Unit × List Bet :=
  if walletAddress = "" then
    (Except.error "Wallet address is required", bets)
  else
    match bets.find? (fun b => b.id == betId) with
    | none => (Except.error "Bet not found", bets)
    | some bet =>
      if bet.user_wallet ≠ walletAddress then
        (Except.error "Not authorized to claim this bet", bets)
      else if bet.claimed then
        (Except.error "Bet has already been claimed", bets)
      else if bet.status ≠ "Won" then
        (Except.error "Only winning bets can be claimed", bets)
      else
        (Except.ok (), claimBet betId txSig bets)

/-! ## Helper lemmas -/

/-- A bet that is not `Active` never matches the losing-side WHERE
clause, whatever the result string is. -/
theorem lostCond_false_of_status (result : String) (b : Bet)
    (h : b.status ≠ "Active") : lostCond result b = false := by
  have hb : (b.status == "Active") = false := beq_eq_false_iff_ne.mpr h
  unfold lostCond
  split_ifs <;> simp [hb]

/-- Elements of the preferred subset are legal moves. -/
theorem mem_of_mem_preferredMovesFor (style : String)
    (legalMoves : List AnnotatedMove) (mv : AnnotatedMove)
    (h : mv ∈ preferredMovesFor style legalMoves) : mv ∈ legalMoves := by
  unfold preferredMovesFor at h
  split_ifs at h <;> first
    | exact List.mem_of_mem_filter h
    | exact absurd h (List.not_mem_nil mv)

/-- A non-empty preferred subset forces a non-empty legal move list. -/
theorem legal_ne_nil_of_preferred_ne_nil (style : String)
    (legalMoves : List AnnotatedMove)
    (h : preferredMovesFor style legalMoves ≠ []) : legalMoves ≠ [] := by
  intro hnil
  subst hnil
  apply h
  unfold preferredMovesFor
  split_ifs <;> rfl

/-- The floor-based random index is in range for a draw in `[0, 1)`. -/
theorem pickIndex_lt (r : ℚ) (n : Nat) (h0 : 0 ≤ r) (h1 : r < 1)
    (hn : 0 < n) : pickIndex r n < n := by
  unfold pickIndex
  have hnq : (0 : ℚ) < (n : ℚ) := by exact_mod_cast hn
  have hnn : (0 : ℚ) ≤ r * n := mul_nonneg h0 (le_of_lt hnq)
  have hfl : (0 : ℤ) ≤ ⌊r * (n : ℚ)⌋ := Int.floor_nonneg.mpr hnn
  have hlt : r * (n : ℚ) < (n : ℚ) := by
    calc r * (n : ℚ) < 1 * (n : ℚ) := by exact mul_lt_mul_of_pos_right h1 hnq
    _ = (n : ℚ) := one_mul _
  have hfl2 : ⌊r * (n : ℚ)⌋ < (n : ℤ) := by
    rw [Int.floor_lt]
    exact_mod_cast hlt
  omega

/-- The random pick from a non-empty list succeeds and yields a member. -/
theorem pickMove_mem (l : List AnnotatedMove) (r : ℚ) (h0 : 0 ≤ r)
    (h1 : r < 1) (hl : l ≠ []) :
    ∃ mv, pickMove l r = some mv ∧ mv ∈ l := by
  have hn : 0 < l.length := List.length_pos.mpr hl
  have hidx : pickIndex r l.length < l.length := pickIndex_lt r l.length h0 h1 hn
  refine ⟨l[pickIndex r l.length], ?_, ?_⟩
  · unfold pickMove
    exact List.getElem?_eq_getElem hidx
  · exact List.getElem_mem hidx

/-- Characterization of the floor-based index: it equals `i` exactly when
the draw falls in the half-open interval `[i/n, (i+1)/n)` — each of the
`n` indices therefore corresponds to an interval of width `1/n` of the
uniform draw, which is the uniform choice. -/
theorem pickIndex_eq_iff (r : ℚ) (n i : Nat) (h0 : 0 ≤ r) (hn : 0 < n) :
    pickIndex r n = i ↔
      (i : ℚ) / (n : ℚ) ≤ r ∧ r < ((i : ℚ) + 1) / (n : ℚ) := by
  unfold pickIndex
  have hnq : (0 : ℚ) < (n : ℚ) := by exact_mod_cast hn
  have hnn : (0 : ℚ) ≤ r * n := mul_nonneg h0 (le_of_lt hnq)
  have hfl : (0 : ℤ) ≤ ⌊r * (n : ℚ)⌋ := Int.floor_nonneg.mpr hnn
  have step1 : ⌊r * (n : ℚ)⌋.toNat = i ↔ ⌊r * (n : ℚ)⌋ = (i : ℤ) := by
    omega
  rw [step1, Int.floor_eq_iff]
  constructor
  · rintro ⟨ha, hb⟩
    constructor
    · rw [div_le_iff₀ hnq]
      exact_mod_cast ha
    · rw [lt_div_iff₀ hnq]
      push_cast at hb ⊢
      linarith
  · rintro ⟨ha, hb⟩
    constructor
    · rw [div_le_iff₀ hnq] at ha
      exact_mod_cast ha
    · rw [lt_div_iff₀ hnq] at hb
      push_cast
      linarith

/-! ## Claim C1 (corrected): betting lock and the lifecycle -/

/-- Claim C1 fails on the code: promoting a due `Scheduled` match flips
its status to `InProgress` but leaves `bets_locked` exactly as it was
(`match-processor.ts` line 98 assigns only `status`), so immediately
after promotion the match has `status ≠ "Scheduled"` with betting still
open — the claimed invariant `status ≠ Scheduled → betsLocked` and the
claimed atomic lock at promotion are both violated at this input. -/
theorem promotion_leaves_bets_unlocked_cex :
    (let m : ChessMatch :=
      { id := 1, solana_match_id := 1000, white_bot_id := 1, black_bot_id := 2,
        status := "Scheduled", match_type := "Regular", start_time := 0,
        end_time := none, result := none, white_pool := 0, black_pool := 0,
        draw_pool := 0, bets_locked := false, moves := [], time_control := "10+0" }
     m.status = "Scheduled" ∧ m.start_time ≤ 5 ∧ m.bets_locked = false ∧
     (startScheduledStep 5 m).status = "InProgress" ∧
     (startScheduledStep 5 m).bets_locked = false) := by
  refine ⟨rfl, by decide, rfl, ?_, rfl⟩
  rfl

/-- Amended C1: `bets_locked` becomes true only at completion.  The
promotion step changes only the status and always preserves the betting
lock; matches created directly in `InProgress` by the matchmaking service
are created with `bets_locked = false`; and the completion update is what
sets `bets_locked = true` (together with `Completed` status). -/
theorem bets_locked_only_at_completion (now now2 : Int) (m : ChessMatch)
    (newId solanaId whiteId blackId : Nat) (matchType timeControl result : String) :
    (startScheduledStep now m).bets_locked = m.bets_locked ∧
    (m.status = "Scheduled" → m.start_time ≤ now →
      (startScheduledStep now m).status = "InProgress") ∧
    (createActiveMatch newId solanaId whiteId blackId matchType timeControl now).status
      = "InProgress" ∧
    (createActiveMatch newId solanaId whiteId blackId matchType timeControl now).bets_locked
      = false ∧
    (completeMatch result now2 m).status = "Completed" ∧
    (completeMatch result now2 m).bets_locked = true := by
  refine ⟨?_, ?_, rfl, rfl, rfl, rfl⟩
  · unfold startScheduledStep
    split_ifs <;> rfl
  · intro h1 h2
    unfold startScheduledStep
    rw [if_pos ⟨h1, h2⟩]

/-- Concrete instance of the amended C1 theorem. -/
theorem bets_locked_only_at_completion_witness :
    (let m : ChessMatch :=
      { id := 3, solana_match_id := 1500, white_bot_id := 4, black_bot_id := 5,
        status := "Scheduled", match_type := "Regular", start_time := 2,
        end_time := none, result := none, white_pool := 0, black_pool := 0,
        draw_pool := 0, bets_locked := false, moves := [], time_control := "5+0" }
     m.status = "Scheduled" ∧ m.start_time ≤ 7 ∧
     (startScheduledStep 7 m).bets_locked = m.bets_locked ∧
     (startScheduledStep 7 m).status = "InProgress" ∧
     (createActiveMatch 8 1700 4 5 "Regular" "5+0" 7).bets_locked = false ∧
     (completeMatch "Draw" 9 m).bets_locked = true) := by
  intro m
  have h := bets_locked_only_at_completion 7 9 m 8 1700 4 5 "Regular" "5+0" "Draw"
  exact ⟨rfl, by decide, h.1, h.2.1 rfl (by decide), h.2.2.2.1, h.2.2.2.2.2⟩

/-! ## Claim C6 (confirmed): terminal result assignment -/

/-- Claim C6: when the tick sees a game-over report on an `InProgress`
match, the result is `White` for checkmate with Black to move, `Black`
for checkmate with White to move, and `Draw` for any other terminal
condition; the same update sets `Completed`, the end time and the
betting lock. -/
theorem terminal_result_assignment (engine : List String → EngineReport)
    (now : Int) (m : ChessMatch) (hIn : m.status = "InProgress")
    (hOver : (engine m.moves).gameOver = true) :
    (generateAIMovesStep engine now m).status = "Completed" ∧
    (generateAIMovesStep engine now m).end_time = some now ∧
    (generateAIMovesStep engine now m).bets_locked = true ∧
    ((engine m.moves).checkmate = true → (engine m.moves).whiteTurn = false →
      (generateAIMovesStep engine now m).result = some "White") ∧
    ((engine m.moves).checkmate = true → (engine m.moves).whiteTurn = true →
      (generateAIMovesStep engine now m).result = some "Black") ∧
    ((engine m.moves).checkmate = false →
      (generateAIMovesStep engine now m).result = some "Draw") := by
  have hstep : generateAIMovesStep engine now m
      = completeMatch (terminalResult (engine m.moves)) now m := by
    unfold generateAIMovesStep
    rw [if_pos hIn, if_pos hOver]
  refine ⟨?_, ?_, ?_, ?_, ?_, ?_⟩
  · rw [hstep]; rfl
  · rw [hstep]; rfl
  · rw [hstep]; rfl
  · intro hc hw
    rw [hstep]
    show some (terminalResult (engine m.moves)) = some "White"
    unfold terminalResult
    rw [if_pos hc, if_neg]
    simp [hw]
  · intro hc hw
    rw [hstep]
    show some (terminalResult (engine m.moves)) = some "Black"
    unfold terminalResult
    rw [if_pos hc, if_pos hw]
  · intro hc
    rw [hstep]
    show some (terminalResult (engine m.moves)) = some "Draw"
    unfold terminalResult
    rw [if_neg]
    simp [hc]

/-- Concrete instance of C6: checkmate with White to move yields a Black
win with the full completion update. -/
theorem terminal_result_assignment_witness :
    (let m : ChessMatch :=
      { id := 2, solana_match_id := 1200, white_bot_id := 1, black_bot_id := 2,
        status := "InProgress", match_type := "Regular", start_time := 0,
        end_time := none, result := none, white_pool := 3, black_pool := 4,
        draw_pool := 1, bets_locked := false, moves := ["e4", "f6", "d4", "g5"],
        time_control := "10+0" }
     let engine : List String → EngineReport :=
       fun _ => { gameOver := true, checkmate := true, whiteTurn := true }
     (generateAIMovesStep engine 11 m).status = "Completed" ∧
     (generateAIMovesStep engine 11 m).result = some "Black" ∧
     (generateAIMovesStep engine 11 m).bets_locked = true) := by
  intro m engine
  have h := terminal_result_assignment engine 11 m rfl rfl
  exact ⟨h.1, h.2.2.2.2.1 rfl rfl, h.2.2.1⟩

/-! ## Claim C7 (confirmed): move-ceiling forced draw -/

/-- Claim C7: an `InProgress` match whose move list has reached 100
plies is forced by the tick to `Completed` with result `Draw`, end time
and betting lock set, even when the engine reports the position is not
game over. -/
theorem move_ceiling_forces_draw (engine : List String → EngineReport)
    (now : Int) (m : ChessMatch) (hIn : m.status = "InProgress")
    (hNotOver : (engine m.moves).gameOver = false)
    (hLen : 100 ≤ m.moves.length) :
    (processMatchesStep engine now m).status = "Completed" ∧
    (processMatchesStep engine now m).result = some "Draw" ∧
    (processMatchesStep engine now m).end_time = some now ∧
    (processMatchesStep engine now m).bets_locked = true := by
  have h1 : startScheduledStep now m = m := by
    unfold startScheduledStep
    rw [if_neg]
    intro hc
    rw [hIn] at hc
    exact absurd hc.1 (by decide)
  have h2 : generateAIMovesStep engine now m = m := by
    unfold generateAIMovesStep
    rw [if_pos hIn, if_neg]
    simp [hNotOver]
  have h3 : processMatchesStep engine now m =
      { m with
        result := some "Draw",
        status := "Completed",
        end_time := some now,
        bets_locked := true } := by
    unfold processMatchesStep
    rw [h1, h2]
    unfold updateMatchResultsStep
    rw [if_pos hIn, if_pos hLen]
  rw [h3]
  exact ⟨rfl, rfl, rfl, rfl⟩

/-- Concrete instance of C7: a 100-ply match with no terminal report is
forced to a completed draw by the tick. -/
theorem move_ceiling_forces_draw_witness :
    (let m : ChessMatch :=
      { id := 4, solana_match_id := 1300, white_bot_id := 2, black_bot_id := 3,
        status := "InProgress", match_type := "Regular", start_time := 0,
        end_time := none, result := none, white_pool := 1, black_pool := 1,
        draw_pool := 1, bets_locked := false,
        moves := List.replicate 100 "Nf3", time_control := "10+0" }
     let engine : List String → EngineReport :=
       fun _ => { gameOver := false, checkmate := false, whiteTurn := true }
     (processMatchesStep engine 13 m).status = "Completed" ∧
     (processMatchesStep engine 13 m).result = some "Draw" ∧
     (processMatchesStep engine 13 m).bets_locked = true) := by
  intro m engine
  have h := move_ceiling_forces_draw engine 13 m rfl rfl (by decide)
  exact ⟨h.1, h.2.1, h.2.2.2⟩

/-- Value of the Won-pass map body on a bet matched by its WHERE clause. -/
theorem wonPass_apply_pos (mid : Nat) (result : String) (total winning : ℚ)
    (b : Bet) (hmid : b.match_id = mid) (hw : b.outcome = result) :
    (if b.match_id = mid ∧ b.outcome = result then
      { b with
        status := "Won",
        payout := if b.outcome = result
                  then some (b.amount * (total / winning) * (95 / 100))
                  else b.payout }
    else b) =
    { b with
      status := "Won",
      payout := some (b.amount * (total / winning) * (95 / 100)) } := by
  rw [if_pos ⟨hmid, hw⟩, if_pos hw]

/-- Value of the Won-pass map body on a bet its WHERE clause skips. -/
theorem wonPass_apply_neg (mid : Nat) (result : String) (total winning : ℚ)
    (b : Bet) (h : ¬ (b.match_id = mid ∧ b.outcome = result)) :
    (if b.match_id = mid ∧ b.outcome = result then
      { b with
        status := "Won",
        payout := if b.outcome = result
                  then some (b.amount * (total / winning) * (95 / 100))
                  else b.payout }
    else b) = b := by
  rw [if_neg h]

/-- Value of the Lost-pass map body on a bet matched by its WHERE clause. -/
theorem lostPass_apply_pos (mid : Nat) (result : String) (b : Bet)
    (hmid : b.match_id = mid) (hlc : lostCond result b = true) :
    (if b.match_id = mid ∧ lostCond result b then { b with status := "Lost" } else b)
      = { b with status := "Lost" } := by
  rw [if_pos ⟨hmid, hlc⟩]

/-- Value of the Lost-pass map body on a bet its WHERE clause skips. -/
theorem lostPass_apply_neg (mid : Nat) (result : String) (b : Bet)
    (h : ¬ (b.match_id = mid ∧ lostCond result b = true)) :
    (if b.match_id = mid ∧ lostCond result b then { b with status := "Lost" } else b)
      = b := by
  rw [if_neg h]

/-- The Lost pass skips any bet that is no longer `Active`. -/
theorem lostPass_apply_skip (mid : Nat) (result : String) (b : Bet)
    (h : b.status ≠ "Active") :
    (if b.match_id = mid ∧ lostCond result b then { b with status := "Lost" } else b)
      = b := by
  rw [if_neg]
  intro hc
  rw [lostCond_false_of_status result b h] at hc
  exact absurd hc.2 (by decide)

/-- An `Active` bet on a valid outcome different from a valid result
satisfies the losing-side WHERE clause. -/
theorem lostCond_true_of_ne (result : String) (b : Bet)
    (hact : b.status = "Active")
    (hres : result = "White" ∨ result = "Black" ∨ result = "Draw")
    (hout : b.outcome = "White" ∨ b.outcome = "Black" ∨ b.outcome = "Draw")
    (hne : b.outcome ≠ result) : lostCond result b = true := by
  rcases hres with hr | hr | hr <;> subst hr <;>
    rcases hout with ho | ho | ho <;>
      first
        | exact absurd ho hne
        | (unfold lostCond
           rw [hact, ho]
           rfl)

/-! ## Claim C2 (confirmed): settlement payouts -/

/-- Claim C2: settlement of a match with result `r` marks each of the
match's active bets on `r` as `Won` with payout
`amount * (totalPool / winningPool) * 0.95`, and each active bet on a
different outcome as `Lost` with a still-null payout. -/
theorem settlement_payout_correct (mid : Nat) (result : String) (now : Int)
    (matchList : List ChessMatch) (bets : List Bet) (m : ChessMatch)
    (i : Nat) (hi : i < bets.length)
    (hfind : matchList.find? (fun x => x.id == mid) = some m)
    (hres : result = "White" ∨ result = "Black" ∨ result = "Draw")
    (hmid : bets[i].match_id = mid)
    (hact : bets[i].status = "Active")
    (hout : bets[i].outcome = "White" ∨ bets[i].outcome = "Black" ∨
      bets[i].outcome = "Draw")
    (hpay : bets[i].payout = none) :
    (bets[i].outcome = result →
      (updateMatchResult mid result now matchList bets).2[i]? =
        some { bets[i] with
               status := "Won"
               payout := some (bets[i].amount *
                 ((m.white_pool + m.black_pool + m.draw_pool) /
                   winningPoolOf m result) * (95 / 100)) }) ∧
    (bets[i].outcome ≠ result →
      (updateMatchResult mid result now matchList bets).2[i]? =
        some { bets[i] with status := "Lost" } ∧
      ({ bets[i] with status := "Lost" } : Bet).payout = none) := by
  have hsnd : (updateMatchResult mid result now matchList bets).2 =
      settleLostPass mid result (settleWonPass mid result
        (m.white_pool + m.black_pool + m.draw_pool)
        (winningPoolOf m result) bets) := by
    unfold updateMatchResult
    rw [hfind]
    rfl
  constructor
  · intro hw
    rw [hsnd]
    unfold settleLostPass settleWonPass
    rw [List.getElem?_map, List.getElem?_map, List.getElem?_eq_getElem hi]
    simp only [Option.map_some']
    rw [wonPass_apply_pos mid result
      (m.white_pool + m.black_pool + m.draw_pool) (winningPoolOf m result)
      bets[i] hmid hw]
    rw [lostPass_apply_skip mid result
      { bets[i] with
        status := "Won"
        payout := some (bets[i].amount *
          ((m.white_pool + m.black_pool + m.draw_pool) /
            winningPoolOf m result) * (95 / 100)) }
      (by intro h; simp at h)]
  · intro hne
    refine ⟨?_, hpay⟩
    rw [hsnd]
    unfold settleLostPass settleWonPass
    rw [List.getElem?_map, List.getElem?_map, List.getElem?_eq_getElem hi]
    simp only [Option.map_some']
    rw [wonPass_apply_neg mid result
      (m.white_pool + m.black_pool + m.draw_pool) (winningPoolOf m result)
      bets[i] (fun hc => hne hc.2)]
    rw [lostPass_apply_pos mid result bets[i] hmid
      (lostCond_true_of_ne result bets[i] hact hres hout hne)]

/-- Concrete instance of C2 — the spec's worked example: pools
white 10 / black 5 / draw 2, result White; the 4-unit bet on White
settles to Won with payout 4 * (17/10) * 0.95 = 6.46 = 323/50, and the
3-unit bet on Black settles to Lost with payout still null. -/
theorem settlement_payout_correct_witness :
    (let mW : ChessMatch :=
      { id := 1, solana_match_id := 1000, white_bot_id := 1, black_bot_id := 2,
        status := "Completed", match_type := "Regular", start_time := 0,
        end_time := none, result := none, white_pool := 10, black_pool := 5,
        draw_pool := 2, bets_locked := true, moves := [], time_control := "10+0" }
     let b0 : Bet :=
      { id := "b0", match_id := 1, solana_match_id := 1000, user_wallet := "w1",
        amount := 4, outcome := "White", transaction_signature := none,
        status := "Active", claimed := false, payout := none }
     let b1 : Bet :=
      { id := "b1", match_id := 1, solana_match_id := 1000, user_wallet := "w2",
        amount := 3, outcome := "Black", transaction_signature := none,
        status := "Active", claimed := false, payout := none }
     (updateMatchResult 1 "White" 99 [mW] [b0, b1]).2[0]? =
       some { b0 with
              status := "Won"
              payout := some ((4 : ℚ) * ((10 + 5 + 2) / 10) * (95 / 100)) } ∧
     (updateMatchResult 1 "White" 99 [mW] [b0, b1]).2[1]? =
       some { b1 with status := "Lost" } ∧
     ({ b1 with status := "Lost" } : Bet).payout = none ∧
     ((4 : ℚ) * ((10 + 5 + 2) / 10) * (95 / 100)) = 323 / 50) := by
  intro mW b0 b1
  refine ⟨?_, ?_, ?_, by norm_num⟩
  · exact (settlement_payout_correct 1 "White" 99 [mW] [b0, b1] mW 0
      (by decide) rfl (Or.inl rfl) rfl rfl (Or.inl rfl) rfl).1 rfl
  · exact ((settlement_payout_correct 1 "White" 99 [mW] [b0, b1] mW 1
      (by decide) rfl (Or.inl rfl) rfl rfl (Or.inr (Or.inl rfl)) rfl).2
      (by decide)).1
  · exact ((settlement_payout_correct 1 "White" 99 [mW] [b0, b1] mW 1
      (by decide) rfl (Or.inl rfl) rfl rfl (Or.inr (Or.inl rfl)) rfl).2
      (by decide)).2

/-! ## Claim C3 (confirmed): settlement is idempotent -/

/-- Running the two settlement UPDATE passes a second time with the same
result and pools changes nothing: winners are re-assigned the identical
`Won` status and identical payout (the pools the payout is computed from
are not modified by settlement), and the `Lost` pass only touches bets
that are still `Active`. -/
theorem settle_passes_idem (mid : Nat) (result : String) (total winning : ℚ)
    (bets : List Bet) :
    settleLostPass mid result (settleWonPass mid result total winning
      (settleLostPass mid result (settleWonPass mid result total winning bets))) =
    settleLostPass mid result (settleWonPass mid result total winning bets) := by
  induction bets with
  | nil => rfl
  | cons b t ih =>
    simp only [settleLostPass, settleWonPass, List.map_cons] at ih ⊢
    congr 1
    by_cases h1 : b.match_id = mid ∧ b.outcome = result
    · rw [wonPass_apply_pos mid result total winning b h1.1 h1.2]
      set bw : Bet :=
        { b with
          status := "Won"
          payout := some (b.amount * (total / winning) * (95 / 100)) } with hbw
      have hs : bw.status ≠ "Active" := by
        rw [hbw]
        intro h
        simp at h
      rw [lostPass_apply_skip mid result bw hs]
      have hfix : (if bw.match_id = mid ∧ bw.outcome = result then
          ({ bw with
             status := "Won",
             payout := if bw.outcome = result
                       then some (bw.amount * (total / winning) * (95 / 100))
                       else bw.payout } : Bet)
        else bw) = bw := by
        rw [if_pos ⟨h1.1, h1.2⟩, if_pos h1.2, hbw]
      rw [hfix]
      exact lostPass_apply_skip mid result bw hs
    · by_cases h2 : b.match_id = mid ∧ lostCond result b = true
      · rw [wonPass_apply_neg mid result total winning b h1,
          lostPass_apply_pos mid result b h2.1 h2.2,
          wonPass_apply_neg mid result total winning
            { b with status := "Lost" } h1,
          lostPass_apply_skip mid result { b with status := "Lost" }
            (by intro h; simp at h)]
      · rw [wonPass_apply_neg mid result total winning b h1,
          lostPass_apply_neg mid result b h2,
          wonPass_apply_neg mid result total winning b h1,
          lostPass_apply_neg mid result b h2]

/-- Finding a match after the first record with its id has been replaced
by `f` of it yields that replaced record, provided `f` preserves the id
of the found record. -/
theorem find?_updateFirstMatch (mid : Nat) (f : ChessMatch → ChessMatch)
    (l : List ChessMatch) (m : ChessMatch)
    (h : l.find? (fun x => x.id == mid) = some m) (hfm : (f m).id = mid) :
    (updateFirstMatch mid f l).find? (fun x => x.id == mid) = some (f m) := by
  induction l with
  | nil => simp [List.find?] at h
  | cons a t ih =>
    unfold updateFirstMatch
    by_cases ha : a.id = mid
    · rw [if_pos ha]
      have hpa : ((fun x : ChessMatch => x.id == mid) a) = true := beq_iff_eq.mpr ha
      rw [@List.find?_cons_of_pos ChessMatch (fun x => x.id == mid) a t hpa] at h
      have hm : m = a := (Option.some_inj.mp h).symm
      subst hm
      exact @List.find?_cons_of_pos ChessMatch (fun x => x.id == mid) (f m) t
        (beq_iff_eq.mpr hfm)
    · rw [if_neg ha]
      have hpa : ¬ ((fun x : ChessMatch => x.id == mid) a) = true := by
        simp only [beq_iff_eq]
        exact ha
      rw [@List.find?_cons_of_neg ChessMatch (fun x => x.id == mid) a t hpa] at h
      rw [@List.find?_cons_of_neg ChessMatch (fun x => x.id == mid) a
        (updateFirstMatch mid f t) hpa]
      exact ih h

/-- Claim C3: invoking `updateMatchResult` a second time on the already
Completed match leaves every bet exactly as the first settlement left it
— in particular, no already-settled bet's status or payout changes. -/
theorem settlement_idempotent (mid : Nat) (result : String) (now : Int)
    (matchList : List ChessMatch) (bets : List Bet) :
    (updateMatchResult mid result now
      (updateMatchResult mid result now matchList bets).1
      (updateMatchResult mid result now matchList bets).2).2 =
    (updateMatchResult mid result now matchList bets).2 := by
  cases hfind : matchList.find? (fun x => x.id == mid) with
  | none =>
    have h1 : updateMatchResult mid result now matchList bets = (matchList, bets) := by
      unfold updateMatchResult
      rw [hfind]
    rw [h1]
    unfold updateMatchResult
    rw [hfind]
  | some m =>
    have hmid : m.id = mid := by
      have hp := List.find?_some hfind
      simpa using hp
    have h1 : updateMatchResult mid result now matchList bets =
        (updateFirstMatch mid (fun _ => completeMatch result now m) matchList,
         settleLostPass mid result (settleWonPass mid result
           (m.white_pool + m.black_pool + m.draw_pool)
           (winningPoolOf m result) bets)) := by
      unfold updateMatchResult
      rw [hfind]
      rfl
    have h2 : (updateFirstMatch mid (fun _ => completeMatch result now m)
        matchList).find? (fun x => x.id == mid) = some (completeMatch result now m) := by
      exact find?_updateFirstMatch mid (fun _ => completeMatch result now m)
        matchList m hfind hmid
    rw [h1]
    unfold updateMatchResult
    rw [h2]
    exact settle_passes_idem mid result
      (m.white_pool + m.black_pool + m.draw_pool) (winningPoolOf m result) bets

/-! ## Claim C4 (corrected): move selector legality -/

/-- Claim C4 as stated by the spec: over every engine answer (including a
thrown evaluation error, whose legal-move set is empty), the selector
returns `none` exactly on an empty legal-move set and otherwise a member
of the legal-move set — never any other value. -/
def moveSelectorLegalityClaim : Prop :=
  ∀ (style : String) (engineMoves : Except Unit (List AnnotatedMove))
    (r1 r2 r3 : ℚ), 0 ≤ r1 → r1 < 1 → 0 ≤ r2 → r2 < 1 → 0 ≤ r3 → r3 < 1 →
    ((generateAIMoveForStyle style engineMoves r1 r2 r3 = none ↔
        legalOf engineMoves = []) ∧
     ∀ s, generateAIMoveForStyle style engineMoves r1 r2 r3 = some s →
       s ∈ (legalOf engineMoves).map AnnotatedMove.san)

/-- Claim C4 fails on the code: the catch block of
`generateAIMoveForStyle` converts an evaluation error into the
hard-coded move `"e4"` (storage.ts line 57), so on an erroring position
the selector returns a fabricated move that is in no legal-move set,
refuting "no fabricated move is ever produced, on any internal path
including error recovery". -/
theorem move_selector_fabricates_on_error_cex : ¬ moveSelectorLegalityClaim := by
  intro hclaim
  have h := (hclaim "Aggressive" (Except.error ()) (1 / 2) (1 / 2) (1 / 2)
    (by norm_num) (by norm_num) (by norm_num) (by norm_num) (by norm_num)
    (by norm_num)).2 "e4" rfl
  simp [legalOf] at h

/-- Amended C4: on every successful engine answer the selector is legal —
`none` exactly on an empty legal-move list, otherwise the SAN of a legal
move — while on an engine error it returns the fixed fallback move
`"e4"` regardless of any legal-move set. -/
theorem move_selector_legality_amended (style : String)
    (legalMoves : List AnnotatedMove) (r1 r2 r3 : ℚ)
    (h2a : 0 ≤ r2) (h2b : r2 < 1) (h3a : 0 ≤ r3) (h3b : r3 < 1) :
    (generateAIMoveForStyle style (Except.ok legalMoves) r1 r2 r3 = none ↔
      legalMoves = []) ∧
    (∀ s, generateAIMoveForStyle style (Except.ok legalMoves) r1 r2 r3 = some s →
      s ∈ legalMoves.map AnnotatedMove.san) ∧
    generateAIMoveForStyle style (Except.error ()) r1 r2 r3 = some "e4" := by
  have hgen : generateAIMoveForStyle style (Except.ok legalMoves) r1 r2 r3 =
      (if legalMoves.length = 0 then none
       else if 0 < (preferredMovesFor style legalMoves).length ∧ (3 : ℚ) / 10 < r1 then
         (pickMove (preferredMovesFor style legalMoves) r2).map (fun mv => mv.san)
       else (pickMove legalMoves r3).map (fun mv => mv.san)) := rfl
  refine ⟨?_, ?_, rfl⟩
  · constructor
    · intro hnone
      by_contra hne
      have hlen : legalMoves.length ≠ 0 := fun h => hne (List.length_eq_zero.mp h)
      rw [hgen] at hnone
      rw [if_neg hlen] at hnone
      by_cases hbr : 0 < (preferredMovesFor style legalMoves).length ∧ (3 : ℚ) / 10 < r1
      · rw [if_pos hbr] at hnone
        obtain ⟨mv, hmv, _⟩ := pickMove_mem (preferredMovesFor style legalMoves) r2
          h2a h2b (List.length_pos.mp hbr.1)
        rw [hmv] at hnone
        exact Option.noConfusion hnone
      · rw [if_neg hbr] at hnone
        obtain ⟨mv, hmv, _⟩ := pickMove_mem legalMoves r3 h3a h3b hne
        rw [hmv] at hnone
        exact Option.noConfusion hnone
    · intro hnil
      subst hnil
      rfl
  · intro s hs
    rw [hgen] at hs
    by_cases hlen : legalMoves.length = 0
    · rw [if_pos hlen] at hs
      exact Option.noConfusion hs
    · rw [if_neg hlen] at hs
      have hne : legalMoves ≠ [] := fun h => hlen (by rw [h]; rfl)
      by_cases hbr : 0 < (preferredMovesFor style legalMoves).length ∧ (3 : ℚ) / 10 < r1
      · rw [if_pos hbr] at hs
        obtain ⟨mv, hmv, hmem⟩ := pickMove_mem (preferredMovesFor style legalMoves) r2
          h2a h2b (List.length_pos.mp hbr.1)
        rw [hmv] at hs
        have : mv.san = s := Option.some_inj.mp hs
        subst this
        exact List.mem_map_of_mem AnnotatedMove.san
          (mem_of_mem_preferredMovesFor style legalMoves mv hmem)
      · rw [if_neg hbr] at hs
        obtain ⟨mv, hmv, hmem⟩ := pickMove_mem legalMoves r3 h3a h3b hne
        rw [hmv] at hs
        have : mv.san = s := Option.some_inj.mp hs
        subst this
        exact List.mem_map_of_mem AnnotatedMove.san hmem

/-- Concrete instance of the amended C4 theorem: with two legal moves the
selector picks a legal SAN, with no legal moves it returns `none`, and on
an engine error it returns the fallback `"e4"`. -/
theorem move_selector_legality_amended_witness :
    ((generateAIMoveForStyle "Aggressive"
        (Except.ok [{ san := "Qxd5", captured := true, piece := 'q' },
                    { san := "a3", captured := false, piece := 'p' }])
        (1 / 2) 0 0 = none ↔
      ([{ san := "Qxd5", captured := true, piece := 'q' },
        { san := "a3", captured := false, piece := 'p' }] :
          List AnnotatedMove) = []) ∧
     (∀ s, generateAIMoveForStyle "Aggressive"
        (Except.ok [{ san := "Qxd5", captured := true, piece := 'q' },
                    { san := "a3", captured := false, piece := 'p' }])
        (1 / 2) 0 0 = some s →
       s ∈ ([{ san := "Qxd5", captured := true, piece := 'q' },
             { san := "a3", captured := false, piece := 'p' }] :
          List AnnotatedMove).map AnnotatedMove.san) ∧
     generateAIMoveForStyle "Aggressive" (Except.error ()) (1 / 2) 0 0
       = some "e4") :=
  move_selector_legality_amended "Aggressive"
    [{ san := "Qxd5", captured := true, piece := 'q' },
     { san := "a3", captured := false, piece := 'p' }]
    (1 / 2) 0 0 (by norm_num) (by norm_num) (by norm_num) (by norm_num)

/-! ## Claim C8 (confirmed): the style filters -/

/-- Claim C8: the preferred subset is exactly the legal moves that
capture or carry the SAN check marker for Aggressive and Tactical, the
non-capturing legal moves for Defensive, the knight/bishop/castling
legal moves for Positional; every other style gets an empty preferred
subset and therefore always picks from the full legal-move list,
independently of the first two random draws — the no-filter behavior. -/
theorem style_filter_characterization (legalMoves : List AnnotatedMove)
    (mv : AnnotatedMove) (style : String) (r1 r2 r3 r1' r2' : ℚ) :
    (mv ∈ preferredMovesFor "Aggressive" legalMoves ↔
      mv ∈ legalMoves ∧ (mv.captured = true ∨ mv.san.contains '+' = true)) ∧
    (mv ∈ preferredMovesFor "Tactical" legalMoves ↔
      mv ∈ legalMoves ∧ (mv.captured = true ∨ mv.san.contains '+' = true)) ∧
    (mv ∈ preferredMovesFor "Defensive" legalMoves ↔
      mv ∈ legalMoves ∧ mv.captured = false) ∧
    (mv ∈ preferredMovesFor "Positional" legalMoves ↔
      mv ∈ legalMoves ∧
        (mv.piece = 'n' ∨ mv.piece = 'b' ∨ mv.san = "O-O" ∨ mv.san = "O-O-O")) ∧
    (style ≠ "Aggressive" → style ≠ "Defensive" → style ≠ "Positional" →
      style ≠ "Tactical" →
      preferredMovesFor style legalMoves = [] ∧
      generateAIMoveForStyle style (Except.ok legalMoves) r1 r2 r3 =
        (if legalMoves.length = 0 then none
         else (pickMove legalMoves r3).map (fun x => x.san)) ∧
      generateAIMoveForStyle style (Except.ok legalMoves) r1 r2 r3 =
        generateAIMoveForStyle style (Except.ok legalMoves) r1' r2' r3) := by
  refine ⟨?_, ?_, ?_, ?_, ?_⟩
  · unfold preferredMovesFor
    rw [if_pos rfl]
    simp [List.mem_filter, Bool.or_eq_true, beq_iff_eq]
  · unfold preferredMovesFor
    rw [if_neg (by decide), if_neg (by decide), if_neg (by decide), if_pos rfl]
    simp [List.mem_filter, Bool.or_eq_true, beq_iff_eq]
    tauto
  · unfold preferredMovesFor
    rw [if_neg (by decide), if_pos rfl]
    simp [List.mem_filter, Bool.not_eq_true']
  · unfold preferredMovesFor
    rw [if_neg (by decide), if_neg (by decide), if_pos rfl]
    simp [List.mem_filter, Bool.or_eq_true, beq_iff_eq, or_assoc]
  · intro hA hD hP hT
    have hpref : preferredMovesFor style legalMoves = [] := by
      unfold preferredMovesFor
      rw [if_neg hA, if_neg hD, if_neg hP, if_neg hT]
    have hx : ∀ a b : ℚ,
        generateAIMoveForStyle style (Except.ok legalMoves) a b r3 =
          (if legalMoves.length = 0 then none
           else (pickMove legalMoves r3).map (fun x => x.san)) := by
      intro a b
      have hgen : generateAIMoveForStyle style (Except.ok legalMoves) a b r3 =
          (if legalMoves.length = 0 then none
           else if 0 < (preferredMovesFor style legalMoves).length ∧
               (3 : ℚ) / 10 < a then
             (pickMove (preferredMovesFor style legalMoves) b).map (fun x => x.san)
           else (pickMove legalMoves r3).map (fun x => x.san)) := rfl
      rw [hgen, hpref]
      by_cases hlen : legalMoves.length = 0
      · rw [if_pos hlen, if_pos hlen]
      · rw [if_neg hlen, if_neg hlen, if_neg]
        intro hc
        exact absurd hc.1 (by decide)
    exact ⟨hpref, hx r1 r2, (hx r1 r2).trans (hx r1' r2').symm⟩

/-- Concrete instance of C8: a capture is in the Aggressive preferred
subset, and the `"Neural"` style has an empty preferred subset with the
unfiltered, draw-independent selection. -/
theorem style_filter_characterization_witness :
    (let mv1 : AnnotatedMove := { san := "Qxd5", captured := true, piece := 'q' }
     let mv2 : AnnotatedMove := { san := "a3", captured := false, piece := 'p' }
     (mv1 ∈ preferredMovesFor "Aggressive" [mv1, mv2] ↔
       mv1 ∈ [mv1, mv2] ∧ (mv1.captured = true ∨ mv1.san.contains '+' = true)) ∧
     preferredMovesFor "Neural" [mv1, mv2] = [] ∧
     generateAIMoveForStyle "Neural" (Except.ok [mv1, mv2]) (1 / 2) (1 / 3) 0 =
       (if ([mv1, mv2] : List AnnotatedMove).length = 0 then none
        else (pickMove [mv1, mv2] 0).map (fun x => x.san)) ∧
     generateAIMoveForStyle "Neural" (Except.ok [mv1, mv2]) (1 / 2) (1 / 3) 0 =
       generateAIMoveForStyle "Neural" (Except.ok [mv1, mv2]) (1 / 7) (2 / 3) 0) := by
  intro mv1 mv2
  have h := style_filter_characterization [mv1, mv2] mv1 "Neural"
    (1 / 2) (1 / 3) 0 (1 / 7) (2 / 3)
  have h5 := h.2.2.2.2 (by decide) (by decide) (by decide) (by decide)
  exact ⟨(style_filter_characterization [mv1, mv2] mv1 "Neural"
    (1 / 2) (1 / 3) 0 (1 / 7) (2 / 3)).1, h5.1, h5.2.1, h5.2.2⟩

/-! ## Claim C9 (confirmed): the 0.7 / 0.3 uniform mixture -/

/-- Claim C9: with an injected random stream, a non-empty preferred
subset is sampled uniformly (the draw interval `[i/n, (i+1)/n)` of width
`1/n` yields index `i`) exactly when the first draw exceeds 0.3 — an
event that is the sub-interval `(3/10, 1)` of the unit interval, of
length 0.7 — and otherwise (first draw at most 0.3, or an empty
preferred subset) the full legal-move list is sampled uniformly in the
same interval sense. -/
theorem style_bias_uniform_mixture (style : String)
    (legalMoves : List AnnotatedMove) (r1 r2 r3 : ℚ)
    (h1a : 0 ≤ r1) (h1b : r1 < 1) (h2a : 0 ≤ r2) (h2b : r2 < 1)
    (h3a : 0 ≤ r3) (h3b : r3 < 1) :
    (preferredMovesFor style legalMoves ≠ [] → (3 : ℚ) / 10 < r1 →
      generateAIMoveForStyle style (Except.ok legalMoves) r1 r2 r3 =
        (pickMove (preferredMovesFor style legalMoves) r2).map (fun x => x.san) ∧
      ∀ i : Nat, pickIndex r2 (preferredMovesFor style legalMoves).length = i ↔
        ((i : ℚ) / ((preferredMovesFor style legalMoves).length : ℚ) ≤ r2 ∧
         r2 < ((i : ℚ) + 1) / ((preferredMovesFor style legalMoves).length : ℚ))) ∧
    (preferredMovesFor style legalMoves ≠ [] → r1 ≤ (3 : ℚ) / 10 →
      generateAIMoveForStyle style (Except.ok legalMoves) r1 r2 r3 =
        (pickMove legalMoves r3).map (fun x => x.san) ∧
      ∀ i : Nat, pickIndex r3 legalMoves.length = i ↔
        ((i : ℚ) / (legalMoves.length : ℚ) ≤ r3 ∧
         r3 < ((i : ℚ) + 1) / (legalMoves.length : ℚ))) ∧
    (preferredMovesFor style legalMoves = [] →
      generateAIMoveForStyle style (Except.ok legalMoves) r1 r2 r3 =
        (pickMove legalMoves r3).map (fun x => x.san)) ∧
    ((0 < (preferredMovesFor style legalMoves).length ∧ (3 : ℚ) / 10 < r1) ↔
      (preferredMovesFor style legalMoves ≠ [] ∧
        r1 ∈ Set.Ioo ((3 : ℚ) / 10) 1)) := by
  have hgen : generateAIMoveForStyle style (Except.ok legalMoves) r1 r2 r3 =
      (if legalMoves.length = 0 then none
       else if 0 < (preferredMovesFor style legalMoves).length ∧
           (3 : ℚ) / 10 < r1 then
         (pickMove (preferredMovesFor style legalMoves) r2).map (fun x => x.san)
       else (pickMove legalMoves r3).map (fun x => x.san)) := rfl
  refine ⟨?_, ?_, ?_, ?_⟩
  · intro hne hr1
    have hlegal : legalMoves ≠ [] :=
      legal_ne_nil_of_preferred_ne_nil style legalMoves hne
    have hlen : legalMoves.length ≠ 0 :=
      fun h => hlegal (List.length_eq_zero.mp h)
    constructor
    · rw [hgen, if_neg hlen, if_pos ⟨List.length_pos.mpr hne, hr1⟩]
    · intro i
      exact pickIndex_eq_iff r2 (preferredMovesFor style legalMoves).length i
        h2a (List.length_pos.mpr hne)
  · intro hne hr1
    have hlegal : legalMoves ≠ [] :=
      legal_ne_nil_of_preferred_ne_nil style legalMoves hne
    have hlen : legalMoves.length ≠ 0 :=
      fun h => hlegal (List.length_eq_zero.mp h)
    constructor
    · rw [hgen, if_neg hlen, if_neg]
      intro hc
      exact absurd hc.2 (not_lt.mpr hr1)
    · intro i
      exact pickIndex_eq_iff r3 legalMoves.length i h3a
        (List.length_pos.mpr hlegal)
  · intro hemp
    rw [hgen, hemp]
    by_cases hlen : legalMoves.length = 0
    · rw [if_pos hlen]
      have hnil : legalMoves = [] := List.length_eq_zero.mp hlen
      subst hnil
      rfl
    · rw [if_neg hlen, if_neg]
      intro hc
      exact absurd hc.1 (by decide)
  · constructor
    · rintro ⟨hp, hr⟩
      exact ⟨List.length_pos.mp hp, Set.mem_Ioo.mpr ⟨hr, h1b⟩⟩
    · rintro ⟨hne, hio⟩
      exact ⟨List.length_pos.mpr hne, (Set.mem_Ioo.mp hio).1⟩

/-- Concrete instance of C9: an Aggressive position with one preferred
capture, first draw 1/2 > 0.3, second draw 0 — the capture is selected,
and the index characterization holds for both samplings. -/
theorem style_bias_uniform_mixture_witness :
    (let mv1 : AnnotatedMove := { san := "Qxd5", captured := true, piece := 'q' }
     let mv2 : AnnotatedMove := { san := "a3", captured := false, piece := 'p' }
     preferredMovesFor "Aggressive" [mv1, mv2] ≠ [] ∧
     (3 : ℚ) / 10 < (1 : ℚ) / 2 ∧
     (generateAIMoveForStyle "Aggressive" (Except.ok [mv1, mv2]) (1 / 2) 0 0 =
        (pickMove (preferredMovesFor "Aggressive" [mv1, mv2]) 0).map
          (fun x => x.san) ∧
      ∀ i : Nat,
        pickIndex 0 (preferredMovesFor "Aggressive" [mv1, mv2]).length = i ↔
          ((i : ℚ) / ((preferredMovesFor "Aggressive" [mv1, mv2]).length : ℚ) ≤ 0 ∧
           (0 : ℚ) < ((i : ℚ) + 1) /
             ((preferredMovesFor "Aggressive" [mv1, mv2]).length : ℚ)))) := by
  intro mv1 mv2
  refine ⟨by decide, by norm_num, ?_⟩
  exact (style_bias_uniform_mixture "Aggressive" [mv1, mv2] (1 / 2) 0 0
    (by norm_num) (by norm_num) (by norm_num) (by norm_num) (by norm_num)
    (by norm_num)).1 (by decide) (by norm_num)

/-! ## Claim C5 (corrected): bet placement -/

/-- Conditions under which `POST /api/bets` accepts a bet — the amended
acceptance condition: present (truthy) body fields, a positive stake, a
whitelisted outcome, an existing target match, and that match being
`InProgress` with betting not locked.  A `Scheduled` match is rejected:
the handler requires `status === "InProgress"`. -/
def placeCond (req : BetRequest) (matchList : List ChessMatch) : Prop :=
  req.matchId ≠ 0 ∧ req.walletAddress ≠ "" ∧ 0 < req.amount ∧
  (req.outcome = "White" ∨ req.outcome = "Black" ∨ req.outcome = "Draw") ∧
  ∃ m, matchList.find? (fun x => x.id == req.matchId) = some m ∧
    m.bets_locked = false ∧ m.status = "InProgress"

/-- Claim C5 fails on the code: for a `Scheduled`, unlocked match and an
otherwise valid request, the handler answers "Betting is closed for this
match" and changes nothing, although the claim demands acceptance for
Scheduled-or-InProgress unlocked matches. -/
theorem scheduled_bet_rejected_cex :
    (let m : ChessMatch :=
      { id := 1, solana_match_id := 1000, white_bot_id := 1, black_bot_id := 2,
        status := "Scheduled", match_type := "Regular", start_time := 50,
        end_time := none, result := none, white_pool := 0, black_pool := 0,
        draw_pool := 0, bets_locked := false, moves := [], time_control := "10+0" }
     let req : BetRequest :=
      { matchId := 1, walletAddress := "wallet1", amount := 2,
        outcome := "White", transactionSignature := "" }
     m.status = "Scheduled" ∧ m.bets_locked = false ∧ (0 : ℚ) < req.amount ∧
     req.outcome = "White" ∧
     (placeBet req 7 [m] []).1 = Except.error "Betting is closed for this match" ∧
     (placeBet req 7 [m] []).2.1 = [m] ∧
     (placeBet req 7 [m] []).2.2 = []) := by
  intro m req
  refine ⟨rfl, rfl, by norm_num, rfl, ?_, ?_, ?_⟩ <;> rfl

/-- Amended C5: a bet placement succeeds exactly when `placeCond` holds —
non-empty wallet, nonzero match id naming an existing match, positive
stake, whitelisted outcome, and the match `InProgress` with betting
unlocked; on success the new Active bet is appended and only the chosen
outcome's pool of the target match grows by the stake, and on rejection
the stores are untouched. -/
theorem place_bet_amended (req : BetRequest) (nowMs : Int)
    (matchList : List ChessMatch) (bets : List Bet) :
    (∀ m, matchList.find? (fun x => x.id == req.matchId) = some m →
      placeCond req matchList →
      placeBet req nowMs matchList bets =
        (Except.ok
          { id := "bet_" ++ toString nowMs
            match_id := req.matchId
            solana_match_id := m.solana_match_id
            user_wallet := req.walletAddress
            amount := req.amount
            outcome := req.outcome
            transaction_signature :=
              some (if req.transactionSignature = ""
                    then "MOCK_TX_" ++ toString nowMs
                    else req.transactionSignature)
            status := "Active"
            claimed := false
            payout := none },
         updateFirstMatch req.matchId (addToPool req.outcome req.amount) matchList,
         bets ++ [{
            id := "bet_" ++ toString nowMs
            match_id := req.matchId
            solana_match_id := m.solana_match_id
            user_wallet := req.walletAddress
            amount := req.amount
            outcome := req.outcome
            transaction_signature :=
              some (if req.transactionSignature = ""
                    then "MOCK_TX_" ++ toString nowMs
                    else req.transactionSignature)
            status := "Active"
            claimed := false
            payout := none }])) ∧
    (¬ placeCond req matchList →
      (∃ e, (placeBet req nowMs matchList bets).1 = Except.error e) ∧
      (placeBet req nowMs matchList bets).2.1 = matchList ∧
      (placeBet req nowMs matchList bets).2.2 = bets) ∧
    (∀ m : ChessMatch,
      (req.outcome = "White" →
        addToPool req.outcome req.amount m =
          { m with white_pool := m.white_pool + req.amount }) ∧
      (req.outcome = "Black" →
        addToPool req.outcome req.amount m =
          { m with black_pool := m.black_pool + req.amount }) ∧
      (req.outcome = "Draw" →
        addToPool req.outcome req.amount m =
          { m with draw_pool := m.draw_pool + req.amount })) := by
  refine ⟨?_, ?_, ?_⟩
  · intro m hm hc
    obtain ⟨h1, h2, h3, h4, m', hm', hlock, hstat⟩ := hc
    have hmm : m' = m := by
      rw [hm] at hm'
      exact (Option.some_inj.mp hm').symm
    subst hmm
    have hG1 : ¬ (req.matchId = 0 ∨ req.walletAddress = "" ∨ req.amount = 0 ∨
        req.outcome = "" ∨ req.amount ≤ 0) := by
      intro hg
      rcases hg with h | h | h | h | h
      · exact h1 h
      · exact h2 h
      · exact absurd h (ne_of_gt h3)
      · rcases h4 with ho | ho | ho <;> rw [ho] at h <;> exact absurd h (by decide)
      · exact absurd h3 (not_lt.mpr h)
    have hG2 : ¬ ¬ (req.outcome = "White" ∨ req.outcome = "Black" ∨
        req.outcome = "Draw") := not_not_intro h4
    have hstep : placeBet req nowMs matchList bets =
        (if m'.bets_locked = true ∨ m'.status ≠ "InProgress" then
          (Except.error "Betting is closed for this match", matchList, bets)
         else
          (Except.ok
            ({ id := "bet_" ++ toString nowMs
               match_id := req.matchId
               solana_match_id := m'.solana_match_id
               user_wallet := req.walletAddress
               amount := req.amount
               outcome := req.outcome
               transaction_signature :=
                 some (if req.transactionSignature = ""
                       then "MOCK_TX_" ++ toString nowMs
                       else req.transactionSignature)
               status := "Active"
               claimed := false
               payout := none } : Bet),
           updateFirstMatch req.matchId (addToPool req.outcome req.amount) matchList,
           bets ++ [{
               id := "bet_" ++ toString nowMs
               match_id := req.matchId
               solana_match_id := m'.solana_match_id
               user_wallet := req.walletAddress
               amount := req.amount
               outcome := req.outcome
               transaction_signature :=
                 some (if req.transactionSignature = ""
                       then "MOCK_TX_" ++ toString nowMs
                       else req.transactionSignature)
               status := "Active"
               claimed := false
               payout := none }])) := by
      unfold placeBet
      rw [if_neg hG1, if_neg hG2, hm]
    rw [hstep, if_neg]
    intro hg
    rcases hg with hl | hs
    · rw [hlock] at hl
      exact Bool.noConfusion hl
    · exact hs hstat
  · intro hnc
    by_cases g1 : req.matchId = 0 ∨ req.walletAddress = "" ∨ req.amount = 0 ∨
        req.outcome = "" ∨ req.amount ≤ 0
    · have hstep : placeBet req nowMs matchList bets =
          (Except.error "Invalid bet parameters", matchList, bets) := by
        unfold placeBet
        rw [if_pos g1]
      rw [hstep]
      exact ⟨⟨_, rfl⟩, rfl, rfl⟩
    · by_cases g2 : ¬ (req.outcome = "White" ∨ req.outcome = "Black" ∨
          req.outcome = "Draw")
      · have hstep : placeBet req nowMs matchList bets =
            (Except.error "Outcome must be White, Black, or Draw", matchList, bets) := by
          unfold placeBet
          rw [if_neg g1, if_pos g2]
        rw [hstep]
        exact ⟨⟨_, rfl⟩, rfl, rfl⟩
      · push_neg at g1
        obtain ⟨g1a, g1b, g1c, g1d, g1e⟩ := g1
        cases hfind : matchList.find? (fun x => x.id == req.matchId) with
        | none =>
          have hstep : placeBet req nowMs matchList bets =
              (Except.error "Match not found", matchList, bets) := by
            unfold placeBet
            rw [if_neg, if_neg g2, hfind]
            intro hg
            rcases hg with h | h | h | h | h
            · exact g1a h
            · exact g1b h
            · exact g1c h
            · exact g1d h
            · exact absurd g1e (not_lt.mpr h)
          rw [hstep]
          exact ⟨⟨_, rfl⟩, rfl, rfl⟩
        | some m =>
          by_cases g3 : m.bets_locked = true ∨ m.status ≠ "InProgress"
          · have hstep : placeBet req nowMs matchList bets =
                (if m.bets_locked = true ∨ m.status ≠ "InProgress" then
                  (Except.error "Betting is closed for this match", matchList, bets)
                 else
                  (Except.ok
                    ({ id := "bet_" ++ toString nowMs
                       match_id := req.matchId
                       solana_match_id := m.solana_match_id
                       user_wallet := req.walletAddress
                       amount := req.amount
                       outcome := req.outcome
                       transaction_signature :=
                         some (if req.transactionSignature = ""
                               then "MOCK_TX_" ++ toString nowMs
                               else req.transactionSignature)
                       status := "Active"
                       claimed := false
                       payout := none } : Bet),
                   updateFirstMatch req.matchId
                     (addToPool req.outcome req.amount) matchList,
                   bets ++ [{
                       id := "bet_" ++ toString nowMs
                       match_id := req.matchId
                       solana_match_id := m.solana_match_id
                       user_wallet := req.walletAddress
                       amount := req.amount
                       outcome := req.outcome
                       transaction_signature :=
                         some (if req.transactionSignature = ""
                               then "MOCK_TX_" ++ toString nowMs
                               else req.transactionSignature)
                       status := "Active"
                       claimed := false
                       payout := none }])) := by
              unfold placeBet
              rw [if_neg, if_neg g2, hfind]
              intro hg
              rcases hg with h | h | h | h | h
              · exact g1a h
              · exact g1b h
              · exact g1c h
              · exact g1d h
              · exact absurd g1e (not_lt.mpr h)
            rw [hstep, if_pos g3]
            exact ⟨⟨_, rfl⟩, rfl, rfl⟩
          · exfalso
            apply hnc
            push_neg at g3
            refine ⟨g1a, g1b, g1e, not_not.mp g2, m, hfind, ?_, g3.2⟩
            cases hml : m.bets_locked
            · rfl
            · exact absurd hml g3.1
  · intro m
    refine ⟨?_, ?_, ?_⟩ <;> intro h <;> unfold addToPool <;> rw [h]
    · rw [if_pos rfl]
    · rw [if_neg (by decide), if_pos rfl]
    · rw [if_neg (by decide), if_neg (by decide)]

/-- Concrete instance of the amended C5 theorem: a valid bet on Black on
an unlocked InProgress match is accepted, appended as an Active bet, and
increments exactly the black pool by the stake. -/
theorem place_bet_amended_witness :
    (let m : ChessMatch :=
      { id := 1, solana_match_id := 1000, white_bot_id := 1, black_bot_id := 2,
        status := "InProgress", match_type := "Regular", start_time := 0,
        end_time := none, result := none, white_pool := 1, black_pool := 2,
        draw_pool := 3, bets_locked := false, moves := [], time_control := "10+0" }
     let req : BetRequest :=
      { matchId := 1, walletAddress := "w", amount := 2, outcome := "Black",
        transactionSignature := "sig" }
     placeCond req [m] ∧
     placeBet req 7 [m] [] =
       (Except.ok
         ({ id := "bet_" ++ toString (7 : Int)
            match_id := 1
            solana_match_id := 1000
            user_wallet := "w"
            amount := 2
            outcome := "Black"
            transaction_signature :=
              some (if ("sig" : String) = ""
                    then "MOCK_TX_" ++ toString (7 : Int)
                    else "sig")
            status := "Active"
            claimed := false
            payout := none } : Bet),
        updateFirstMatch 1 (addToPool "Black" 2) [m],
        [] ++ [{
            id := "bet_" ++ toString (7 : Int)
            match_id := 1
            solana_match_id := 1000
            user_wallet := "w"
            amount := 2
            outcome := "Black"
            transaction_signature :=
              some (if ("sig" : String) = ""
                    then "MOCK_TX_" ++ toString (7 : Int)
                    else "sig")
            status := "Active"
            claimed := false
            payout := none }]) ∧
     (addToPool "Black" 2 m).black_pool = m.black_pool + 2 ∧
     (addToPool "Black" 2 m).white_pool = m.white_pool ∧
     (addToPool "Black" 2 m).draw_pool = m.draw_pool) := by
  intro m req
  have hc : placeCond req [m] :=
    ⟨by decide, by decide, by norm_num, Or.inr (Or.inl rfl), m, rfl, rfl, rfl⟩
  have hb := ((place_bet_amended req 7 [m] []).2.2 m).2.1 rfl
  exact ⟨hc, (place_bet_amended req 7 [m] []).1 m rfl hc,
    by rw [hb], by rw [hb], by rw [hb]⟩

/-! ## Claim C10 (confirmed): claiming a bet -/

/-- Claim C10: through `POST /api/bets/:id/claim` a bet's claimed flag
can become true only when the bet exists, the requesting wallet is the
bet's recorded wallet, the bet is still unclaimed, and its status is
`Won`; on any failed guard the handler rejects and the bet store is left
untouched, and even on success every other bet is left untouched. -/
theorem claim_only_won_unclaimed (walletAddress txSig betId : String)
    (bets : List Bet) :
    ((claimHandler walletAddress txSig betId bets).1 = Except.ok () →
      ∃ bet, bets.find? (fun b => b.id == betId) = some bet ∧
        bet.user_wallet = walletAddress ∧ bet.claimed = false ∧
        bet.status = "Won") ∧
    (∀ e, (claimHandler walletAddress txSig betId bets).1 = Except.error e →
      (claimHandler walletAddress txSig betId bets).2 = bets) ∧
    ((claimHandler walletAddress txSig betId bets).1 = Except.ok () →
      ∀ i, ∀ hi : i < bets.length, (bets.get ⟨i, hi⟩).id ≠ betId →
        (claimHandler walletAddress txSig betId bets).2[i]? =
          some (bets.get ⟨i, hi⟩)) := by
  by_cases hw : walletAddress = ""
  · have hstep : claimHandler walletAddress txSig betId bets =
        (Except.error "Wallet address is required", bets) := by
      unfold claimHandler
      rw [if_pos hw]
    rw [hstep]
    exact ⟨fun h => by simp at h, fun e he => rfl, fun h => by simp at h⟩
  · cases hfind : bets.find? (fun b => b.id == betId) with
    | none =>
      have hstep : claimHandler walletAddress txSig betId bets =
          (Except.error "Bet not found", bets) := by
        unfold claimHandler
        rw [if_neg hw, hfind]
      rw [hstep]
      exact ⟨fun h => by simp at h, fun e he => rfl, fun h => by simp at h⟩
    | some bet =>
      have hstep : claimHandler walletAddress txSig betId bets =
          (if bet.user_wallet ≠ walletAddress then
            (Except.error "Not authorized to claim this bet", bets)
           else if bet.claimed then
            (Except.error "Bet has already been claimed", bets)
           else if bet.status ≠ "Won" then
            (Except.error "Only winning bets can be claimed", bets)
           else (Except.ok (), claimBet betId txSig bets)) := by
        unfold claimHandler
        rw [if_neg hw, hfind]
      rw [hstep]
      by_cases h1 : bet.user_wallet ≠ walletAddress
      · rw [if_pos h1]
        exact ⟨fun h => by simp at h, fun e he => rfl, fun h => by simp at h⟩
      · rw [if_neg h1]
        by_cases h2 : bet.claimed = true
        · rw [if_pos h2]
          exact ⟨fun h => by simp at h, fun e he => rfl, fun h => by simp at h⟩
        · rw [if_neg h2]
          by_cases h3 : bet.status ≠ "Won"
          · rw [if_pos h3]
            exact ⟨fun h => by simp at h, fun e he => rfl, fun h => by simp at h⟩
          · rw [if_neg h3]
            have hcl : bet.claimed = false := by
              cases hb : bet.claimed
              · rfl
              · exact absurd hb h2
            refine ⟨fun _ => ⟨bet, rfl, not_not.mp h1, hcl, not_not.mp h3⟩,
              fun e he => by simp at he, fun _ => ?_⟩
            intro i hi hne
            have hne2 : bets[i].id ≠ betId := hne
            unfold claimBet
            show (bets.map _)[i]? = _
            rw [List.getElem?_map, List.getElem?_eq_getElem hi]
            simp only [Option.map_some']
            rw [if_neg hne2]
            rfl

/-- Concrete instance of C10: the owner of an unclaimed Won bet claims
it; the guards hold of the found bet, a rejected foreign-wallet request
leaves the store unchanged, and the other bet in the store is untouched
by the successful claim. -/
theorem claim_only_won_unclaimed_witness :
    (let b0 : Bet :=
      { id := "betA", match_id := 1, solana_match_id := 1000, user_wallet := "w1",
        amount := 4, outcome := "White", transaction_signature := none,
        status := "Won", claimed := false, payout := some 5 }
     let b1 : Bet :=
      { id := "betB", match_id := 1, solana_match_id := 1000, user_wallet := "w2",
        amount := 3, outcome := "Black", transaction_signature := none,
        status := "Lost", claimed := false, payout := none }
     ((claimHandler "w1" "tx9" "betA" [b0, b1]).1 = Except.ok () →
       ∃ bet, ([b0, b1] : List Bet).find? (fun b => b.id == "betA") = some bet ∧
         bet.user_wallet = "w1" ∧ bet.claimed = false ∧ bet.status = "Won") ∧
     ((claimHandler "w2" "tx9" "betA" [b0, b1]).1 =
         Except.error "Not authorized to claim this bet" →
       (claimHandler "w2" "tx9" "betA" [b0, b1]).2 = [b0, b1]) ∧
     ((claimHandler "w1" "tx9" "betA" [b0, b1]).1 = Except.ok () →
       (claimHandler "w1" "tx9" "betA" [b0, b1]).2[1]? = some b1)) := by
  intro b0 b1
  refine ⟨(claim_only_won_unclaimed "w1" "tx9" "betA" [b0, b1]).1, ?_, ?_⟩
  · exact (claim_only_won_unclaimed "w2" "tx9" "betA" [b0, b1]).2.1
      "Not authorized to claim this bet"
  · intro h
    exact (claim_only_won_unclaimed "w1" "tx9" "betA" [b0, b1]).2.2 h 1
      (by decide) (by decide)
